import Mathlib

/-!
# Room synchronisation of the P2P chat (`src/App.jsx`, component `ChatRoom`)

A shallow embedding of the event handlers of `ChatRoom`.  React state
(`users`, `messages`, `ready`, `gameStarted`), the refs (`connections`,
`isHost`, `messageRef`) and the props (`peerId`, `nickname`) are the fields of
one `State` record.  Every handler is a function from the state to the next
state together with the ordered trace of the effects it performed
(`connection.send` calls and `console.warn` diagnostics).

Modelling conventions:

* identifiers are JavaScript strings; `peerId` is `null` until the transport
  reports `open`, so it is an `Option String`, and so is every wire field that
  the code fills from it (`from`, `id`);
* an object of the wire schema is a `Data` record whose `type` is `none` when
  the field is missing; the payload fields are assumed to follow the schema;
* what the `data` event may deliver beyond that (a `null` payload, a `type`
  that is not a string) is a `Received` value, and the handler on it may raise;
* a connection object has an identity of its own (`handle`) next to `peer`;
* functional state updates (`setUsers(prev => ...)`) act on the current state;
  the `users` that `broadcastUserList` reads is the one captured by the closure
  of the render that defined the caller, so it is an explicit argument;
* the handlers bound to buttons (`sendMessage`, `handleReady`,
  `handleStartGame`) belong to a render; the `users` and `peerId` they read are
  taken from the state, while the `messages` that `sendMessage` writes back
  with a plain `setMessages(...)` is the log captured by that render and is an
  explicit argument, since the log may have grown since (`handleData` appends
  with a functional update).
-/

namespace P2PChat

/-! ## Data model -/

/-- Roster entry `{ id, name, ready }`. -/
structure User where
  id : String
  name : String
  ready : Bool
deriving DecidableEq, Repr

/-- Entry of the message log, `{ from, text }`. -/
structure Message where
  from_ : Option String
  text : String
deriving DecidableEq, Repr

/-- A PeerJS data connection: the remote peer id and the identity of the object. -/
structure Conn where
  peer : String
  handle : Nat
deriving DecidableEq, Repr

/-- An object travelling on a data connection.  `type` is `none` when the
object has no `type` field; a field that a message kind does not use is left
at its blank value. -/
structure Data where
  type : Option String
  from_ : Option String
  text : String
  user : User
  users : List User
  id : Option String
deriving DecidableEq, Repr

/-- Object without any field set. -/
def Data.blank : Data :=
  { type := none, from_ := none, text := "", user := ⟨"", "", false⟩, users := [], id := none }

/-- Effects a handler performs, in program order. -/
inductive Effect where
  | send (connection : Conn) (data : Data)
  | warn (text : String)
deriving DecidableEq, Repr

/-- State of one `ChatRoom`. -/
structure State where
  nickname : String
  peerId : Option String
  messages : List Message
  users : List User
  ready : Bool
  gameStarted : Bool
  messageRef : String
  connections : List Conn
  isHost : Bool
deriving DecidableEq, Repr

/-- State of a freshly mounted `ChatRoom` (the `useState` / `useRef` initial values). -/
def State.initial (nickname : String) : State :=
  { nickname := nickname, peerId := none, messages := [], users := [], ready := false,
    gameStarted := false, messageRef := "", connections := [], isHost := false }

/-! ## Handlers -/

/-- The loop `connections.current.forEach(connection => connection.send(data))`. -/
def sendAll (connections : List Conn) (data : Data) : List Effect :=
  connections.map (fun connection => Effect.send connection data)

/-- The function `broadcastMessage(data, excludePeerId = null)`. -/
def broadcastMessage (connections : List Conn) (data : Data)
    (excludePeerId : Option String) : List Effect :=
  connections.flatMap (fun connection =>
    if some connection.peer ≠ excludePeerId then [Effect.send connection data] else [])

/-- The function `broadcastUserList()`; `users` is the roster visible in the caller's closure. -/
def broadcastUserList (users : List User) (connections : List Conn) : List Effect :=
  sendAll connections { Data.blank with type := some "user-list", users := users }

/-- The function `handleData(data, connection)`.  `users` is the roster captured by the
closure in which `handleData` was defined; it is read by `broadcastUserList` only. -/
def handleData (users : List User) (s : State) (data : Data) (connection : Conn) :
    State × List Effect :=
  if data.type = some "message" then
    ({ s with messages := s.messages ++ [{ from_ := data.from_, text := data.text }] },
      if s.isHost then broadcastMessage s.connections data (some connection.peer) else [])
  else if data.type = some "user" then
    ({ s with users :=
        if !(s.users.any (fun user => user.id == data.user.id)) then s.users ++ [data.user]
        else s.users },
      if s.isHost then broadcastUserList users s.connections else [])
  else if data.type = some "user-list" then
    ({ s with users := data.users }, [])
  else if data.type = some "ready" then
    ({ s with users :=
        s.users.map (fun user => if some user.id = data.id then { user with ready := true } else user) },
      if s.isHost then broadcastUserList users s.connections else [])
  else if data.type = some "start" then
    ({ s with gameStarted := true }, [])
  else
    (s, [Effect.warn ("Unknown data type: " ++ data.type.getD "undefined")])

/-- The value of the `type` field of a received object. -/
inductive TypeValue where
  /-- The field is missing. -/
  | undefined
  /-- A string. -/
  | string (value : String)
  /-- Any other value (`null`, a number, a boolean, an array, an object);
  `converted` is the string its conversion yields inside a template literal, or
  `none` when that conversion raises a `TypeError` (an object whose `toString`
  and `valueOf` are not callable). -/
  | other (converted : Option String)
deriving DecidableEq, Repr

/-- The string `${data.type}` of the diagnostic, `none` when the conversion raises. -/
def TypeValue.toText : TypeValue → Option String
  | TypeValue.undefined => some "undefined"
  | TypeValue.string value => some value
  | TypeValue.other converted => converted

/-- A value delivered by the `data` event of a connection. -/
inductive Received where
  /-- The payload `null` or `undefined`: reading a property of it raises. -/
  | nullish
  /-- Any other payload, with the value of its `type` field; `fields` holds its
  remaining fields (the `type` of `fields` is not read).  A payload that is a
  number, a boolean or a string has no `type` field. -/
  | value (type : TypeValue) (fields : Data)
deriving DecidableEq, Repr

/-- Exceptions the handlers may raise. -/
inductive Raised where
  | typeError
deriving DecidableEq, Repr

/-- The listener `data => handleData(data, connection)` on whatever the
connection delivers.  Reading `data.type` raises on a nullish payload; the
`case` labels are compared with `===`, so only a string can match one of them
and a missing `type` or a string is handled as in `handleData`; any other value
reaches `default`, where building the diagnostic converts it to a string. -/
def handleDataReceived (users : List User) (s : State) (received : Received) (connection : Conn) :
    Except Raised (State × List Effect) :=
  match received with
  | Received.nullish => Except.error Raised.typeError
  | Received.value TypeValue.undefined fields =>
    Except.ok (handleData users s { fields with type := none } connection)
  | Received.value (TypeValue.string value) fields =>
    Except.ok (handleData users s { fields with type := some value } connection)
  | Received.value (TypeValue.other converted) _ =>
    match converted with
    | some text => Except.ok (s, [Effect.warn ("Unknown data type: " ++ text)])
    | none => Except.error Raised.typeError

/-- The function `sendMessage()`; the text is the current value of the input
`messageRef`, and `messages` is the log captured by the closure of the render
that defined the handler: `setMessages([...messages, entry])` is not a
functional update. -/
def sendMessage (messages : List Message) (s : State) : State × List Effect :=
  let message := s.messageRef
  if message ≠ "" then
    let data : Data := { Data.blank with type := some "message", from_ := s.peerId, text := message }
    ({ s with messages := messages ++ [{ from_ := s.peerId, text := message }], messageRef := "" },
      if s.isHost then broadcastMessage s.connections data none else sendAll s.connections data)
  else
    (s, [])

/-- The function `handleReady()`. -/
def handleReady (s : State) : State × List Effect :=
  let data : Data := { Data.blank with type := some "ready", id := s.peerId }
  ({ s with ready := true },
    if s.isHost then broadcastUserList s.users s.connections else sendAll s.connections data)

/-- The readiness test `users.every(user => user.id === peerId || user.ready)`. -/
def everyReady (s : State) : Bool :=
  s.users.all (fun user => some user.id == s.peerId || user.ready)

/-- The function `handleStartGame()`. -/
def handleStartGame (s : State) : State × List Effect :=
  if everyReady s then
    let data : Data := { Data.blank with type := some "start" }
    ({ s with gameStarted := true }, sendAll s.connections data)
  else
    (s, [])

/-- The `open` callback of the local peer when the room is being created
(`isCreatingRoom`): the local id is known, the role is host, the roster is seeded. -/
def onPeerOpenCreate (s : State) (id : String) : State :=
  { s with peerId := some id, isHost := true,
           users := [{ id := id, name := s.nickname, ready := false }] }

/-- The `open` callback of an inbound connection (registered in `newPeer.on('connection')`). -/
def onConnectionOpen (s : State) (connection : Conn) : State × List Effect :=
  ({ s with connections := s.connections ++ [connection] },
    [Effect.send connection
      { Data.blank with type := some "user",
                        user := { id := connection.peer, name := s.nickname, ready := false } }])

/-- The callback `connection.peerConnection.oniceconnectionstatechange` of an inbound
connection; `iceConnectionState` is the state read inside the callback. -/
def oniceconnectionstatechange (s : State) (connection : Conn) (iceConnectionState : String) :
    State :=
  if iceConnectionState = "disconnected" ∨ iceConnectionState = "failed" then
    { s with connections := s.connections.filter (fun conn => conn.peer != connection.peer),
             users := s.users.filter (fun user => user.id != connection.peer) }
  else
    s

/-- The button of the lobby below the roster: the start button for the host
(`isHost.current`), the ready button otherwise, each with its `disabled` flag. -/
inductive LobbyButton where
  | startGame (disabled : Bool)
  | readyUp (disabled : Bool)
deriving DecidableEq, Repr

/-- The button rendered in the lobby, as in the JSX of `ChatRoom`. -/
def lobbyButton (s : State) : LobbyButton :=
  if s.isHost then LobbyButton.startGame (!everyReady s) else LobbyButton.readyUp s.ready

/-- A click on the lobby button: a disabled button does nothing, otherwise its
`onClick` handler runs. -/
def clickLobbyButton (s : State) : State × List Effect :=
  match lobbyButton s with
  | LobbyButton.startGame disabled => if disabled then (s, []) else handleStartGame s
  | LobbyButton.readyUp disabled => if disabled then (s, []) else handleReady s

/-- A finite sequence of inbound objects handled in order: one `handleData`
call per object, each on the state left by the previous one; the effects are
concatenated in order. -/
def handleDataSeq (users : List User) : State → List (Data × Conn) → State × List Effect
  | s, [] => (s, [])
  | s, (data, connection) :: rest =>
    let r := handleData users s data connection
    let r' := handleDataSeq users r.1 rest
    (r'.1, r.2 ++ r'.2)

/-- The records of `arrivals` that are the first to carry an id that is
neither in `seen` nor carried by an earlier arrival, in arrival order. -/
def firstSeen : List String → List User → List User
  | _, [] => []
  | seen, u :: us =>
    if u.id ∈ seen then firstSeen seen us else u :: firstSeen (u.id :: seen) us

/-- Events the host reacts to after the room was created. -/
inductive HostEvent where
  | connectionOpen (connection : Conn)
  | data (data : Data) (connection : Conn)
  | iceChange (connection : Conn) (iceConnectionState : String)
deriving DecidableEq, Repr

/-- State after one event. -/
def hostStep (users : List User) (s : State) : HostEvent → State
  | HostEvent.connectionOpen connection => (onConnectionOpen s connection).1
  | HostEvent.data data connection => (handleData users s data connection).1
  | HostEvent.iceChange connection iceConnectionState =>
    oniceconnectionstatechange s connection iceConnectionState

/-- State after a sequence of events, handled to completion one after the other. -/
def hostRun (users : List User) (s : State) (events : List HostEvent) : State :=
  events.foldl (hostStep users) s

/-- The event delivers a `user-list` object. -/
def HostEvent.isUserList : HostEvent → Bool
  | HostEvent.data d _ => d.type == some "user-list"
  | _ => false

/-- The roster invariant of the host as the specification words it: no two
roster entries share an id, every roster id is the own id or the peer of a
registered connection, every registered connection has a roster entry, and
the own id has one. -/
def rosterMatchesRegistry (s : State) : Prop :=
  (s.users.map User.id).Nodup
  ∧ (∀ i ∈ s.users.map User.id, s.peerId = some i ∨ i ∈ s.connections.map Conn.peer)
  ∧ (∀ p ∈ s.connections.map Conn.peer, p ∈ s.users.map User.id)
  ∧ (∀ i ∈ s.peerId.toList, i ∈ s.users.map User.id)

instance (s : State) : Decidable (rosterMatchesRegistry s) := by
  unfold rosterMatchesRegistry
  infer_instance

/-! ## Sample data and specification-level notions -/

/-- Host entry of the scenarios. -/
def alice : User := { id := "user-ALICE", name := "Alice", ready := false }

/-- Joiner entry of the scenarios. -/
def bob : User := { id := "user-BOBBY", name := "Bob", ready := false }

/-- Inbound connection of Bob on the host. -/
def bobConn : Conn := { peer := "user-BOBBY", handle := 1 }

/-- Inbound connection of a third participant on the host. -/
def carolConn : Conn := { peer := "user-CAROL", handle := 2 }

/-- Host state right after room creation by Alice. -/
def roomCreated : State := onPeerOpenCreate (State.initial "Alice") "user-ALICE"

/-- Host state with Bob and Carol connected and Bob announced. -/
def hostWithBob : State :=
  { roomCreated with users := [alice, bob], connections := [bobConn, carolConn] }

/-- Bob's own state as a joiner connected to the host. -/
def joinerBob : State :=
  { State.initial "Bob" with
    peerId := some "user-BOBBY"
    users := [alice, bob]
    connections := [{ peer := "user-ALICE", handle := 7 }] }

/-- Chat message of Scenario C. -/
def hiFromBob : Data :=
  { Data.blank with type := some "message", from_ := some "user-BOBBY", text := "hi" }

/-- Message of a kind this version does not know. -/
def pingData : Data := { Data.blank with type := some "ping", text := "x" }

/-- Snapshot with an empty roster. -/
def emptyUserList : Data := { Data.blank with type := some "user-list", users := [] }

/-- The `ready` message of Bob. -/
def readyBob : Data := { Data.blank with type := some "ready", id := some "user-BOBBY" }

/-- The `start` object. -/
def startData : Data := { Data.blank with type := some "start" }

/-- A joiner whose roster is still empty, connected to the host. -/
def joinerNoRoster : State :=
  { State.initial "Bob" with
    peerId := some "user-BOBBY"
    connections := [{ peer := "user-ALICE", handle := 7 }] }

/-- A text that is empty after trimming whitespace: the empty text and every
text made of whitespace characters only. -/
def emptyAfterTrim (text : String) : Bool :=
  text.toList.all Char.isWhitespace

/-- The sample host with a single blank typed into the input. -/
def hostTypedBlank : State := { hostWithBob with messageRef := " " }

/-- Announcement of the record `u`. -/
def userData (u : User) : Data := { Data.blank with type := some "user", user := u }

/-! ## Chat relay -/

theorem broadcastMessage_eq_filter (connections : List Conn) (data : Data) (p : String) :
    broadcastMessage connections data (some p)
      = (connections.filter (fun k => k.peer != p)).map (fun k => Effect.send k data) := by
  induction connections with
  | nil => rfl
  | cons k ks ih =>
    unfold broadcastMessage at ih ⊢
    by_cases h : k.peer = p
    · simpa [List.flatMap_cons, h] using ih
    · simpa [List.flatMap_cons, h] using ih

theorem broadcastMessage_none (connections : List Conn) (data : Data) :
    broadcastMessage connections data none = sendAll connections data := by
  induction connections with
  | nil => rfl
  | cons k ks ih =>
    unfold broadcastMessage sendAll at ih ⊢
    simpa [List.flatMap_cons] using ih

/-! ## C1: chat relay -/

/-- C1: an inbound `message` appends exactly the entry `{from, text}` at the
end of the log and changes no other part of the state; a host sends the
received object once per registered connection whose peer differs from the
sender's, in registry order, and never to a connection of the sender's peer; a
non-host sends nothing. -/
theorem handleData_message (users : List User) (s : State) (data : Data) (c : Conn)
    (h : data.type = some "message") :
    (handleData users s data c).1
        = { s with messages := s.messages ++ [{ from_ := data.from_, text := data.text }] }
    ∧ (s.isHost = true →
        (handleData users s data c).2
            = (s.connections.filter (fun k => k.peer != c.peer)).map (fun k => Effect.send k data)
        ∧ (∀ k, k.peer ≠ c.peer →
            (handleData users s data c).2.count (Effect.send k data) = s.connections.count k)
        ∧ (∀ k d, k.peer = c.peer → Effect.send k d ∉ (handleData users s data c).2))
    ∧ (s.isHost = false → (handleData users s data c).2 = []) := by
  refine ⟨by simp [handleData, h], ?_, ?_⟩
  · intro hh
    have hsent : (handleData users s data c).2
        = (s.connections.filter (fun k => k.peer != c.peer)).map (fun k => Effect.send k data) := by
      simp [handleData, h, hh, broadcastMessage_eq_filter]
    refine ⟨hsent, ?_, ?_⟩
    · intro k hk
      rw [hsent]
      have hinj : Function.Injective (fun k : Conn => Effect.send k data) := by
        intro a b hab
        simpa using hab
      rw [List.count_map_of_injective _ _ hinj, List.count_filter]
      simpa using hk
    · intro k d hk hmem
      rw [hsent] at hmem
      simp only [List.mem_map, List.mem_filter] at hmem
      obtain ⟨k', ⟨_, hk'⟩, he⟩ := hmem
      injection he with he1 _
      subst he1
      simp [hk] at hk'
  · intro hh
    simp [handleData, h, hh]

/-- Scenario C on the sample host: the log gains Bob's entry and only Carol's
connection receives the relay. -/
theorem handleData_message_witness :
    hiFromBob.type = some "message"
    ∧ (handleData [] hostWithBob hiFromBob bobConn).1.messages
        = [{ from_ := some "user-BOBBY", text := "hi" }]
    ∧ (handleData [] hostWithBob hiFromBob bobConn).2 = [Effect.send carolConn hiFromBob] :=
  ⟨rfl,
   by rw [(handleData_message [] hostWithBob hiFromBob bobConn rfl).1]; rfl,
   by rw [((handleData_message [] hostWithBob hiFromBob bobConn rfl).2.1 rfl).1]; decide⟩

/-! ## C9: unknown message kinds -/

theorem handleData_unknown (users : List User) (s : State) (data : Data) (c : Conn)
    (h : data.type ∉ [some "user", some "message", some "user-list", some "ready", some "start"]) :
    (handleData users s data c).1 = s
    ∧ (handleData users s data c).2
        = [Effect.warn ("Unknown data type: " ++ data.type.getD "undefined")]
    ∧ (∀ k d, Effect.send k d ∉ (handleData users s data c).2)
    ∧ (∀ users' data' c',
        handleData users' (handleData users s data c).1 data' c' = handleData users' s data' c') := by
  simp only [List.mem_cons, List.mem_singleton, List.not_mem_nil, or_false, not_or] at h
  obtain ⟨h1, h2, h3, h4, h5⟩ := h
  have hs : handleData users s data c
      = (s, [Effect.warn ("Unknown data type: " ++ data.type.getD "undefined")]) := by
    simp [handleData, h1, h2, h3, h4, h5]
  refine ⟨by rw [hs], by rw [hs], ?_, ?_⟩
  · intro k d
    rw [hs]
    simp
  · intro users' data' c'
    rw [hs]

/-- C9 does not hold: an object whose `type` is an object without callable
`toString` and `valueOf` carries none of the five known kinds, yet handling it
raises while the diagnostic is built; a `null` payload raises as soon as its
`type` is read. -/
theorem handleDataReceived_raises :
    (∀ t, TypeValue.other none = TypeValue.string t →
        t ∉ ["user", "message", "user-list", "ready", "start"])
    ∧ handleDataReceived [] hostWithBob (Received.value (TypeValue.other none) Data.blank) bobConn
        = Except.error Raised.typeError
    ∧ handleDataReceived [] hostWithBob Received.nullish bobConn
        = Except.error Raised.typeError :=
  ⟨fun _ h => TypeValue.noConfusion h, rfl, rfl⟩

/-- C9 (amended): on host and non-host alike, for a received object whose
`type` is none of the five known strings and converts to a string (a missing
`type`, any other string, and any other value whose conversion succeeds), the
handler completes without raising, returns the state as it was (roster, log,
session state, registry), performs no send, only the diagnostic, and whatever
is received afterwards is handled as if the unknown object had never arrived. -/
theorem handleDataReceived_unknown (users : List User) (s : State) (type : TypeValue)
    (fields : Data) (c : Conn) (text : String)
    (hconv : type.toText = some text)
    (hkind : ∀ t, type = TypeValue.string t →
      t ∉ ["user", "message", "user-list", "ready", "start"]) :
    handleDataReceived users s (Received.value type fields) c
        = Except.ok (s, [Effect.warn ("Unknown data type: " ++ text)])
    ∧ (∀ r, handleDataReceived users s (Received.value type fields) c = Except.ok r →
        r.1 = s
        ∧ (∀ k d, Effect.send k d ∉ r.2)
        ∧ (∀ users' received' c',
            handleDataReceived users' r.1 received' c'
              = handleDataReceived users' s received' c')) := by
  have hs : handleDataReceived users s (Received.value type fields) c
      = Except.ok (s, [Effect.warn ("Unknown data type: " ++ text)]) := by
    cases type with
    | undefined =>
      have ht : text = "undefined" := by
        simp only [TypeValue.toText, Option.some.injEq] at hconv
        exact hconv.symm
      have hu := handleData_unknown users s { fields with type := none } c (by simp)
      simp only [handleDataReceived]
      rw [ht]
      exact congrArg Except.ok (Prod.ext hu.1 hu.2.1)
    | string value =>
      have ht : text = value := by
        simp only [TypeValue.toText, Option.some.injEq] at hconv
        exact hconv.symm
      have hv := hkind value rfl
      have hu := handleData_unknown users s { fields with type := some value } c (by
        simp only [List.mem_cons, List.mem_singleton, List.not_mem_nil, or_false, not_or,
          Option.some.injEq] at hv ⊢
        exact ⟨hv.1, hv.2.1, hv.2.2.1, hv.2.2.2.1, hv.2.2.2.2⟩)
      simp only [handleDataReceived]
      rw [ht]
      exact congrArg Except.ok (Prod.ext hu.1 hu.2.1)
    | other converted =>
      simp only [TypeValue.toText] at hconv
      subst hconv
      rfl
  refine ⟨hs, ?_⟩
  intro r hr
  rw [hs] at hr
  injection hr with hr
  subst hr
  refine ⟨rfl, ?_, fun _ _ _ => rfl⟩
  intro k d
  simp

/-- An unknown kind, a missing `type` and a `null` type on the sample host. -/
theorem handleDataReceived_unknown_witness :
    handleDataReceived [] hostWithBob (Received.value (TypeValue.string "ping") pingData) bobConn
        = Except.ok (hostWithBob, [Effect.warn "Unknown data type: ping"])
    ∧ handleDataReceived [] hostWithBob (Received.value TypeValue.undefined Data.blank) bobConn
        = Except.ok (hostWithBob, [Effect.warn "Unknown data type: undefined"])
    ∧ handleDataReceived [] joinerBob (Received.value (TypeValue.other (some "null")) Data.blank)
          bobConn
        = Except.ok (joinerBob, [Effect.warn "Unknown data type: null"]) :=
  ⟨(handleDataReceived_unknown [] hostWithBob (TypeValue.string "ping") pingData bobConn "ping"
      rfl (by intro t h; injection h with h; subst h; decide)).1,
   (handleDataReceived_unknown [] hostWithBob TypeValue.undefined Data.blank bobConn "undefined"
      rfl (fun _ h => TypeValue.noConfusion h)).1,
   (handleDataReceived_unknown [] joinerBob (TypeValue.other (some "null")) Data.blank bobConn
      "null" rfl (fun _ h => TypeValue.noConfusion h)).1⟩

/-! ## C6: roster snapshots -/

/-- C6 does not hold: the host `roomCreated` (roster `[Alice]`) that receives a
`user-list` with an empty `users` ends with an empty roster. -/
theorem host_user_list_replaces_roster :
    roomCreated.isHost = true
    ∧ emptyUserList.type = some "user-list"
    ∧ roomCreated.users = [alice]
    ∧ (handleData [] roomCreated emptyUserList bobConn).1.users = []
    ∧ (handleData [] roomCreated emptyUserList bobConn).1.users ≠ roomCreated.users := by
  decide

/-- C6 (amended): on host and non-host alike a `user-list` message replaces the
roster with exactly the received `users`, leaves every other part of the state
as it was, and the call performs no send. -/
theorem handleData_user_list (users : List User) (s : State) (data : Data) (c : Conn)
    (h : data.type = some "user-list") :
    (handleData users s data c).1 = { s with users := data.users }
    ∧ (handleData users s data c).1.users = data.users
    ∧ (handleData users s data c).1.messages = s.messages
    ∧ (handleData users s data c).1.gameStarted = s.gameStarted
    ∧ (handleData users s data c).1.connections = s.connections
    ∧ (handleData users s data c).2 = [] := by
  simp [handleData, h]

/-- A snapshot `[Alice]` applied on the host and on the joiner of the samples. -/
theorem handleData_user_list_witness :
    (handleData [] hostWithBob { emptyUserList with users := [alice] } bobConn).1.users = [alice]
    ∧ (handleData [] joinerBob { emptyUserList with users := [alice] } bobConn).2 = [] :=
  ⟨(handleData_user_list [] hostWithBob { emptyUserList with users := [alice] } bobConn rfl).2.1,
   (handleData_user_list [] joinerBob { emptyUserList with users := [alice] } bobConn rfl).2.2.2.2.2⟩

/-! ## C8: ready -/

theorem map_setReady_idem (i : Option String) (l : List User) :
    (l.map (fun user => if some user.id = i then { user with ready := true } else user)).map
        (fun user => if some user.id = i then { user with ready := true } else user)
      = l.map (fun user => if some user.id = i then { user with ready := true } else user) := by
  rw [List.map_map]
  apply List.map_congr_left
  intro u _
  by_cases hu : some u.id = i <;> simp [hu]

/-- C8: a `ready` message for an id keeps every entry's id and name, the order
and the length of the roster, turns `ready` to true on the entries with that id
and keeps the flag of every other entry; all other parts of the state stay;
the roster is unchanged when the id is absent; handling the message a second
time gives the roster of handling it once. -/
theorem handleData_ready (users : List User) (s : State) (data : Data) (c : Conn)
    (h : data.type = some "ready") :
    (handleData users s data c).1
        = { s with users := s.users.map (fun u =>
              { id := u.id, name := u.name, ready := u.ready || decide (some u.id = data.id) }) }
    ∧ (handleData users s data c).1.users.length = s.users.length
    ∧ (handleData users s data c).1.users.map User.id = s.users.map User.id
    ∧ (handleData users s data c).1.users.map User.name = s.users.map User.name
    ∧ (∀ u ∈ (handleData users s data c).1.users, some u.id = data.id → u.ready = true)
    ∧ (data.id ∉ s.users.map (fun u => some u.id) → (handleData users s data c).1.users = s.users)
    ∧ (∀ users' c', (handleData users' (handleData users s data c).1 data c').1
        = (handleData users s data c).1) := by
  have hs : ∀ (us : List User) (t : State) (k : Conn), (handleData us t data k).1
      = { t with
          users := t.users.map
                     (fun user => if some user.id = data.id then { user with ready := true } else user) } := by
    intro us t k
    simp [handleData, h]
  have hm : s.users.map
        (fun user => if some user.id = data.id then { user with ready := true } else user)
      = s.users.map (fun u =>
          { id := u.id, name := u.name, ready := u.ready || decide (some u.id = data.id) }) := by
    apply List.map_congr_left
    intro u _
    by_cases hu : some u.id = data.id <;> simp [hu]
  refine ⟨by rw [hs, hm], by rw [hs]; simp, ?_, ?_, ?_, ?_, ?_⟩
  · rw [hs, hm]
    simp [List.map_map, Function.comp_def]
  · rw [hs, hm]
    simp [List.map_map, Function.comp_def]
  · intro u hu hid
    rw [hs, hm] at hu
    simp only [List.mem_map] at hu
    obtain ⟨v, _, rfl⟩ := hu
    simp at hid
    simp [hid]
  · intro habs
    rw [hs]
    simp only
    conv_rhs => rw [← List.map_id s.users]
    apply List.map_congr_left
    intro u hu
    have : some u.id ≠ data.id := by
      intro he
      apply habs
      rw [← he]
      exact List.mem_map_of_mem (fun u => some u.id) hu
    simp [this]
  · intro users' c'
    rw [hs users' _ c', hs users s c]
    simp only
    rw [map_setReady_idem]

/-- Bob's `ready` on the sample host: only Bob's flag changes. -/
theorem handleData_ready_witness :
    readyBob.type = some "ready"
    ∧ (handleData [] hostWithBob readyBob bobConn).1.users = [alice, { bob with ready := true }] :=
  ⟨rfl, by rw [(handleData_ready [] hostWithBob readyBob bobConn rfl).1]; decide⟩

/-! ## C7: disconnect -/

/-- C7: when the ICE state of a connection becomes `disconnected` or `failed`,
the registry loses exactly the connections of that peer and the roster exactly
the entries of that id; what remains is unchanged, in its order and with its
multiplicity; no other part of the state changes; from the roster `[Alice, Bob]`
a failure of Bob's connection leaves `[Alice]`; a second processing of the same
disconnect changes nothing. -/
theorem oniceconnectionstatechange_disconnect (s : State) (c : Conn) (ice : String)
    (h : ice = "disconnected" ∨ ice = "failed") :
    oniceconnectionstatechange s c ice
        = { s with connections := s.connections.filter (fun k => k.peer != c.peer),
                   users := s.users.filter (fun u => u.id != c.peer) }
    ∧ (oniceconnectionstatechange s c ice).connections.Sublist s.connections
    ∧ (∀ k, k ∈ (oniceconnectionstatechange s c ice).connections
          ↔ k ∈ s.connections ∧ k.peer ≠ c.peer)
    ∧ (∀ k, k.peer ≠ c.peer →
          (oniceconnectionstatechange s c ice).connections.count k = s.connections.count k)
    ∧ (oniceconnectionstatechange s c ice).users.Sublist s.users
    ∧ (∀ u, u ∈ (oniceconnectionstatechange s c ice).users ↔ u ∈ s.users ∧ u.id ≠ c.peer)
    ∧ (∀ u, u.id ≠ c.peer →
          (oniceconnectionstatechange s c ice).users.count u = s.users.count u)
    ∧ (oniceconnectionstatechange hostWithBob bobConn "failed").users = [alice]
    ∧ (∀ ice', ice' = "disconnected" ∨ ice' = "failed" →
          oniceconnectionstatechange (oniceconnectionstatechange s c ice) c ice'
            = oniceconnectionstatechange s c ice) := by
  have hs : ∀ (t : State) (j : String), j = "disconnected" ∨ j = "failed" →
      oniceconnectionstatechange t c j
        = { t with connections := t.connections.filter (fun k => k.peer != c.peer),
                   users := t.users.filter (fun u => u.id != c.peer) } := by
    intro t j hj
    simp [oniceconnectionstatechange, hj]
  refine ⟨hs s ice h, ?_, ?_, ?_, ?_, ?_, ?_, by decide, ?_⟩
  · rw [hs s ice h]
    exact List.filter_sublist _
  · intro k
    rw [hs s ice h]
    simp [List.mem_filter]
  · intro k hk
    rw [hs s ice h]
    simp only
    rw [List.count_filter]
    simpa using hk
  · rw [hs s ice h]
    exact List.filter_sublist _
  · intro u
    rw [hs s ice h]
    simp [List.mem_filter]
  · intro u hu
    rw [hs s ice h]
    simp only
    rw [List.count_filter]
    simpa using hu
  · intro ice' h'
    rw [hs _ ice' h', hs s ice h]
    simp [List.filter_filter]

/-- Scenario D on the sample host: Bob's connection fails. -/
theorem oniceconnectionstatechange_disconnect_witness :
    (oniceconnectionstatechange hostWithBob bobConn "failed").connections = [carolConn]
    ∧ (oniceconnectionstatechange hostWithBob bobConn "failed").users = [alice] := by
  rw [(oniceconnectionstatechange_disconnect hostWithBob bobConn "failed" (Or.inr rfl)).1]
  decide

/-! ## C3: start gate on the host -/

theorem everyReady_iff (s : State) :
    everyReady s = true ↔ ∀ u ∈ s.users, some u.id ≠ s.peerId → u.ready = true := by
  unfold everyReady
  rw [List.all_eq_true]
  constructor
  · intro hall u hu hne
    have := hall u hu
    simp only [Bool.or_eq_true, beq_iff_eq] at this
    rcases this with he | hr
    · exact absurd he hne
    · exact hr
  · intro hall u hu
    simp only [Bool.or_eq_true, beq_iff_eq]
    by_cases he : some u.id = s.peerId
    · exact Or.inl he
    · exact Or.inr (hall u hu he)

/-- C3: on the host, when every roster entry whose id differs from the own id
is ready, `handleStartGame` sends `{type: 'start'}` once per registered
connection, in registry order, and sets the session to started, nothing else
changing; when some such entry is not ready it sends nothing and leaves the
state as it was; from the lobby the session is started exactly when the
condition holds.  The action succeeds on a roster holding only the own entry
and on `[own entry (not ready), another entry (ready)]`. -/
theorem handleStartGame_host (s : State) (_h : s.isHost = true) :
    ((∀ u ∈ s.users, some u.id ≠ s.peerId → u.ready = true) →
        handleStartGame s
          = ({ s with gameStarted := true }, s.connections.map (fun k => Effect.send k startData)))
    ∧ ((∃ u ∈ s.users, some u.id ≠ s.peerId ∧ u.ready = false) → handleStartGame s = (s, []))
    ∧ (s.gameStarted = false →
        ((handleStartGame s).1.gameStarted = true
          ↔ ∀ u ∈ s.users, some u.id ≠ s.peerId → u.ready = true))
    ∧ (∀ self name r, s.peerId = some self → s.users = [{ id := self, name := name, ready := r }] →
        handleStartGame s
          = ({ s with gameStarted := true }, s.connections.map (fun k => Effect.send k startData)))
    ∧ (∀ self name other name', s.peerId = some self →
        s.users = [{ id := self, name := name, ready := false },
                   { id := other, name := name', ready := true }] →
        handleStartGame s
          = ({ s with gameStarted := true }, s.connections.map (fun k => Effect.send k startData))) := by
  have hyes : (∀ u ∈ s.users, some u.id ≠ s.peerId → u.ready = true) →
      handleStartGame s
        = ({ s with gameStarted := true }, s.connections.map (fun k => Effect.send k startData)) := by
    intro hall
    have he : everyReady s = true := (everyReady_iff s).mpr hall
    simp [handleStartGame, he, sendAll, startData]
  have hno : ¬ (∀ u ∈ s.users, some u.id ≠ s.peerId → u.ready = true) →
      handleStartGame s = (s, []) := by
    intro hn
    have he : everyReady s = false := by
      rw [← Bool.not_eq_true]
      exact fun ht => hn ((everyReady_iff s).mp ht)
    simp [handleStartGame, he]
  refine ⟨hyes, ?_, ?_, ?_, ?_⟩
  · rintro ⟨u, hu, hne, hr⟩
    apply hno
    intro hall
    have := hall u hu hne
    rw [hr] at this
    exact Bool.false_ne_true this
  · intro hlobby
    constructor
    · intro hst
      by_contra hn
      rw [hno hn] at hst
      simp only at hst
      rw [hlobby] at hst
      exact Bool.false_ne_true hst
    · intro hall
      rw [hyes hall]
  · intro self name r hp hu
    apply hyes
    intro u hmem hne
    rw [hu] at hmem
    simp only [List.mem_singleton] at hmem
    subst hmem
    exact absurd hp.symm hne
  · intro self name other name' hp hu
    apply hyes
    intro u hmem hne
    rw [hu] at hmem
    simp only [List.mem_cons, List.mem_singleton, List.not_mem_nil, or_false] at hmem
    rcases hmem with rfl | rfl
    · exact absurd hp.symm hne
    · rfl

/-- Scenario E: Alice hosts, Bob is ready, two connections are registered. -/
theorem handleStartGame_host_witness :
    handleStartGame { hostWithBob with users := [alice, { bob with ready := true }] }
      = ({ hostWithBob with users := [alice, { bob with ready := true }], gameStarted := true },
         [Effect.send bobConn startData, Effect.send carolConn startData]) :=
  (handleStartGame_host { hostWithBob with users := [alice, { bob with ready := true }] } rfl).2.2.2.2
    "user-ALICE" "Alice" "user-BOBBY" "Bob" rfl rfl

/-! ## C4: start action on a non-host -/

/-- C4 does not hold: `handleStartGame` run in the state of a non-host with an
empty roster starts the session and sends `start` on its connection. -/
theorem handleStartGame_joiner_starts :
    joinerNoRoster.isHost = false
    ∧ joinerNoRoster.gameStarted = false
    ∧ (handleStartGame joinerNoRoster).1.gameStarted = true
    ∧ (handleStartGame joinerNoRoster).2
        = [Effect.send { peer := "user-ALICE", handle := 7 } startData] := by
  decide

/-- C4 (amended): `handleStartGame` has no role check.  In the state of a
non-host it leaves the state as it was and sends nothing when some roster entry
other than the own one is not ready, and otherwise sets the session to started
and sends `start` on every registered connection.  The lobby of a non-host
renders the ready button, not the start button, and a click on it never
changes the session state and never sends a `start` object. -/
theorem handleStartGame_non_host (s : State) (h : s.isHost = false) :
    (everyReady s = false → handleStartGame s = (s, []))
    ∧ (everyReady s = true →
        handleStartGame s
          = ({ s with gameStarted := true }, s.connections.map (fun k => Effect.send k startData)))
    ∧ lobbyButton s = LobbyButton.readyUp s.ready
    ∧ (clickLobbyButton s).1.gameStarted = s.gameStarted
    ∧ (∀ k d, Effect.send k d ∈ (clickLobbyButton s).2 → d.type = some "ready") := by
  have hb : lobbyButton s = LobbyButton.readyUp s.ready := by
    simp [lobbyButton, h]
  refine ⟨?_, ?_, hb, ?_, ?_⟩
  · intro he
    simp [handleStartGame, he]
  · intro he
    simp [handleStartGame, he, sendAll, startData]
  · unfold clickLobbyButton
    rw [hb]
    by_cases hr : s.ready = true <;> simp [hr, handleReady]
  · intro k d hmem
    unfold clickLobbyButton at hmem
    rw [hb] at hmem
    by_cases hr : s.ready = true
    · simp [hr] at hmem
    · simp [hr, handleReady, h, sendAll] at hmem
      obtain ⟨_, _, _, hd⟩ := hmem
      rw [← hd]

/-- The sample joiner: its button is the ready button, a click sends `ready`
to the host and the session stays in the lobby. -/
theorem handleStartGame_non_host_witness :
    lobbyButton joinerBob = LobbyButton.readyUp false
    ∧ (clickLobbyButton joinerBob).1.gameStarted = false
    ∧ handleStartGame joinerBob = (joinerBob, []) :=
  ⟨(handleStartGame_non_host joinerBob rfl).2.2.1,
   (handleStartGame_non_host joinerBob rfl).2.2.2.1,
   (handleStartGame_non_host joinerBob rfl).1 (by decide)⟩

/-! ## C10: sending a chat message -/

/-- C10 does not hold: a text made of one blank is empty after trimming, yet
`sendMessage`, run in the render that shows the current log, appends it to the
log and sends it on both connections. -/
theorem sendMessage_whitespace_sent :
    emptyAfterTrim hostTypedBlank.messageRef = true
    ∧ (sendMessage hostTypedBlank.messages hostTypedBlank).1.messages
        = hostTypedBlank.messages ++ [{ from_ := some "user-ALICE", text := " " }]
    ∧ (sendMessage hostTypedBlank.messages hostTypedBlank).1.messages ≠ hostTypedBlank.messages
    ∧ (sendMessage hostTypedBlank.messages hostTypedBlank).2.length = 2 := by
  decide

/-- The log written by `sendMessage` is built from the log its render captured:
after `hi` has arrived on the sample host, a send of `x` from the render that
still shows the empty log leaves `[x]`, and from the render that shows `hi`
leaves `[hi, x]`. -/
theorem sendMessage_log_from_render :
    (handleData [] hostWithBob hiFromBob bobConn).1.messages
        = [{ from_ := some "user-BOBBY", text := "hi" }]
    ∧ (sendMessage [] { (handleData [] hostWithBob hiFromBob bobConn).1 with
                          messageRef := "x" }).1.messages
        = [{ from_ := some "user-ALICE", text := "x" }]
    ∧ (sendMessage (handleData [] hostWithBob hiFromBob bobConn).1.messages
          { (handleData [] hostWithBob hiFromBob bobConn).1 with messageRef := "x" }).1.messages
        = [{ from_ := some "user-BOBBY", text := "hi" }, { from_ := some "user-ALICE", text := "x" }] := by
  decide

/-- C10 (amended): `sendMessage` is a no-op exactly for the empty text: then
the state is unchanged and nothing is sent.  For every other text, a
whitespace-only one included, it sends `{type: 'message', from: own id, text}`
once on every registered connection, in registry order, on host and non-host
alike, clears the input, keeps every part of the state but the log and the
input, and, when the log is still the one its render captured, the new log is
the local log with the entry `{from: own id, text}` appended at the end. -/
theorem sendMessage_spec (messages : List Message) (s : State) :
    (s.messageRef = "" → sendMessage messages s = (s, []))
    ∧ (s.messageRef ≠ "" →
        (sendMessage messages s).2
            = s.connections.map (fun k => Effect.send k
                { Data.blank with type := some "message", from_ := s.peerId,
                                  text := s.messageRef })
        ∧ (sendMessage messages s).1
            = { s with messages := (sendMessage messages s).1.messages, messageRef := "" }
        ∧ (messages = s.messages →
            (sendMessage messages s).1.messages
              = s.messages ++ [{ from_ := s.peerId, text := s.messageRef }])) := by
  constructor
  · intro he
    simp [sendMessage, he]
  · intro hne
    refine ⟨?_, ?_, ?_⟩
    · by_cases hh : s.isHost = true
      · simp [sendMessage, hne, hh, broadcastMessage_none, sendAll]
      · simp [sendMessage, hne, hh, sendAll]
    · simp [sendMessage, hne]
    · intro hm
      simp [sendMessage, hne, hm]

/-- The empty input and the text `hi` on the sample host. -/
theorem sendMessage_spec_witness :
    sendMessage [] hostWithBob = (hostWithBob, [])
    ∧ (sendMessage [] { hostWithBob with messageRef := "hi" }).1.messages
        = [{ from_ := some "user-ALICE", text := "hi" }]
    ∧ (sendMessage [] { hostWithBob with messageRef := "hi" }).2.length = 2 :=
  ⟨(sendMessage_spec [] hostWithBob).1 rfl,
   ((sendMessage_spec [] { hostWithBob with messageRef := "hi" }).2 (by decide)).2.2 rfl,
   by rw [((sendMessage_spec [] { hostWithBob with messageRef := "hi" }).2 (by decide)).1]; rfl⟩

/-! ## C2: announcements -/

theorem handleData_user (users : List User) (s : State) (data : Data) (c : Conn)
    (h : data.type = some "user") :
    (handleData users s data c).1
      = { s with users :=
            if data.user.id ∈ s.users.map User.id then s.users else s.users ++ [data.user] } := by
  by_cases hm : data.user.id ∈ s.users.map User.id
  · have hany : (s.users.any fun user => user.id == data.user.id) = true := by
      rw [List.any_eq_true]
      obtain ⟨u, hu, he⟩ := List.mem_map.mp hm
      exact ⟨u, hu, by simp [he]⟩
    simp [handleData, h, hm, hany]
  · have hany : (s.users.any fun user => user.id == data.user.id) = false := by
      rw [← Bool.not_eq_true, List.any_eq_true]
      rintro ⟨u, hu, he⟩
      exact hm (List.mem_map.mpr ⟨u, hu, by simpa using he⟩)
    simp [handleData, h, hm, hany]

theorem firstSeen_congr (l : List User) :
    ∀ seen seen' : List String, (∀ x, x ∈ seen ↔ x ∈ seen') → firstSeen seen l = firstSeen seen' l := by
  induction l with
  | nil => intro _ _ _; rfl
  | cons u us ih =>
    intro seen seen' hmem
    by_cases hu : u.id ∈ seen
    · have hu' : u.id ∈ seen' := (hmem _).mp hu
      simp only [firstSeen, hu, hu', if_true]
      exact ih seen seen' hmem
    · have hu' : u.id ∉ seen' := fun hc => hu ((hmem _).mpr hc)
      simp only [firstSeen, hu, hu', if_false]
      congr 1
      apply ih
      intro x
      simp only [List.mem_cons, hmem x]

theorem mem_ids_firstSeen (l : List User) :
    ∀ (seen : List String) (i : String),
      i ∈ (firstSeen seen l).map User.id ↔ i ∈ l.map User.id ∧ i ∉ seen := by
  induction l with
  | nil => intro seen i; simp [firstSeen]
  | cons u us ih =>
    intro seen i
    by_cases hu : u.id ∈ seen
    · simp only [firstSeen, hu, if_true, ih, List.map_cons, List.mem_cons]
      constructor
      · rintro ⟨h1, h2⟩
        exact ⟨Or.inr h1, h2⟩
      · rintro ⟨h1 | h1, h2⟩
        · exact absurd (h1 ▸ hu) h2
        · exact ⟨h1, h2⟩
    · simp only [firstSeen, hu, if_false, ih, List.map_cons, List.mem_cons, not_or]
      constructor
      · rintro (h1 | ⟨h1, h2, h3⟩)
        · exact ⟨Or.inl h1, h1 ▸ hu⟩
        · exact ⟨Or.inr h1, h3⟩
      · rintro ⟨h1 | h1, h2⟩
        · exact Or.inl h1
        · by_cases he : i = u.id
          · exact Or.inl he
          · exact Or.inr ⟨h1, he, h2⟩

theorem nodup_ids_firstSeen (l : List User) :
    ∀ seen : List String, ((firstSeen seen l).map User.id).Nodup := by
  induction l with
  | nil => intro seen; simp [firstSeen]
  | cons u us ih =>
    intro seen
    by_cases hu : u.id ∈ seen
    · simp only [firstSeen, hu, if_true]
      exact ih seen
    · simp only [firstSeen, hu, if_false, List.map_cons, List.nodup_cons]
      refine ⟨?_, ih _⟩
      intro hc
      have := ((mem_ids_firstSeen us (u.id :: seen) u.id).mp hc).2
      exact this (List.mem_cons_self _ _)

theorem find?_firstSeen (l : List User) :
    ∀ (seen : List String) (i : String), i ∉ seen →
      (firstSeen seen l).find? (fun u => u.id == i) = l.find? (fun u => u.id == i) := by
  induction l with
  | nil => intro seen i _; rfl
  | cons u us ih =>
    intro seen i hi
    by_cases hu : u.id ∈ seen
    · have hne : (u.id == i) = false := by
        rw [← Bool.not_eq_true]
        intro he
        exact hi ((beq_iff_eq.mp he) ▸ hu)
      simp only [firstSeen, hu, if_true, List.find?_cons, hne]
      exact ih seen i hi
    · simp only [firstSeen, hu, if_false]
      cases he : (u.id == i)
      · simp only [List.find?_cons, he]
        apply ih
        intro hc
        rcases List.mem_cons.mp hc with h1 | h1
        · rw [h1] at he
          simp at he
        · exact hi h1
      · simp only [List.find?_cons, he]

theorem handleDataSeq_users (users : List User) (inbound : List (Data × Conn)) :
    ∀ s : State, (∀ dc ∈ inbound, dc.1.type = some "user") →
      (handleDataSeq users s inbound).1
        = { s with users :=
              s.users ++ firstSeen (s.users.map User.id) (inbound.map (fun dc => dc.1.user)) } := by
  induction inbound with
  | nil => intro s _; simp [handleDataSeq, firstSeen]
  | cons dc rest ih =>
    intro s hty
    obtain ⟨d, c⟩ := dc
    have hd : d.type = some "user" := hty (d, c) (List.mem_cons_self _ _)
    have hrest : ∀ dc ∈ rest, dc.1.type = some "user" :=
      fun dc hdc => hty dc (List.mem_cons_of_mem _ hdc)
    simp only [handleDataSeq, List.map_cons]
    rw [ih _ hrest, handleData_user users s d c hd]
    by_cases hm : d.user.id ∈ s.users.map User.id
    · simp only [hm, if_true, firstSeen]
    · simp only [hm, if_false, firstSeen, List.append_assoc, List.singleton_append]
      congr 2
      congr 1
      apply firstSeen_congr
      intro x
      simp only [List.map_append, List.map_cons, List.map_nil, List.mem_append, List.mem_cons,
        List.mem_singleton, List.not_mem_nil, or_false]
      exact Or.comm

/-- C2: a sequence of `user` messages handled in order from a roster without
repeated ids yields the starting roster followed by the first-arriving record
of each previously unseen id, in arrival order, all other parts of the state
being kept; the result has no repeated id, its ids are those of the start and
of the arrivals, the entry of each id is the first record with that id in
start-then-arrival order, and a `user` message whose id is already present
leaves the state, roster included, unchanged. -/
theorem handleDataSeq_user_roster (users : List User) (s : State) (inbound : List (Data × Conn))
    (hnd : (s.users.map User.id).Nodup) (hty : ∀ dc ∈ inbound, dc.1.type = some "user") :
    (handleDataSeq users s inbound).1
        = { s with users :=
              s.users ++ firstSeen (s.users.map User.id) (inbound.map (fun dc => dc.1.user)) }
    ∧ ((handleDataSeq users s inbound).1.users.map User.id).Nodup
    ∧ (∀ i, i ∈ (handleDataSeq users s inbound).1.users.map User.id
          ↔ i ∈ s.users.map User.id ∨ i ∈ inbound.map (fun dc => dc.1.user.id))
    ∧ (∀ i, (handleDataSeq users s inbound).1.users.find? (fun u => u.id == i)
          = (s.users ++ inbound.map (fun dc => dc.1.user)).find? (fun u => u.id == i))
    ∧ (∀ d c, d.type = some "user" → d.user.id ∈ s.users.map User.id →
          (handleData users s d c).1 = s) := by
  have hs := handleDataSeq_users users inbound s hty
  have hids : inbound.map (fun dc => dc.1.user.id)
      = (inbound.map (fun dc => dc.1.user)).map User.id := by
    rw [List.map_map]
    rfl
  refine ⟨hs, ?_, ?_, ?_, ?_⟩
  · rw [hs]
    simp only [List.map_append]
    refine List.Nodup.append hnd (nodup_ids_firstSeen _ _) ?_
    intro i hi hi'
    exact ((mem_ids_firstSeen _ _ _).mp hi').2 hi
  · intro i
    rw [hs, hids]
    simp only [List.map_append, List.mem_append, mem_ids_firstSeen]
    constructor
    · rintro (h1 | ⟨h1, _⟩)
      · exact Or.inl h1
      · exact Or.inr h1
    · rintro (h1 | h1)
      · exact Or.inl h1
      · by_cases hm : i ∈ s.users.map User.id
        · exact Or.inl hm
        · exact Or.inr ⟨h1, hm⟩
  · intro i
    rw [hs]
    simp only [List.find?_append]
    by_cases hm : i ∈ s.users.map User.id
    · obtain ⟨u, hu, he⟩ := List.mem_map.mp hm
      have hsome : (s.users.find? (fun u => u.id == i)).isSome = true :=
        List.find?_isSome.mpr ⟨u, hu, by simp [he]⟩
      obtain ⟨v, hv⟩ := Option.isSome_iff_exists.mp hsome
      rw [hv]
      rfl
    · rw [find?_firstSeen _ _ _ hm]
  · intro d c hd hm
    rw [handleData_user users s d c hd]
    simp [hm]

/-- Carol, then a second record with Bob's id, then Carol again announce
themselves on the sample host: only Carol's first record is added. -/
theorem handleDataSeq_user_roster_witness :
    (handleDataSeq [] hostWithBob
        [(userData { id := "user-CAROL", name := "Carol", ready := false }, carolConn),
         (userData { id := "user-BOBBY", name := "Robert", ready := true }, bobConn),
         (userData { id := "user-CAROL", name := "Caroline", ready := true }, carolConn)]).1.users
      = [alice, bob, { id := "user-CAROL", name := "Carol", ready := false }] := by
  rw [(handleDataSeq_user_roster [] hostWithBob _ (by decide) (by decide)).1]
  decide

/-! ## C5: roster and registry on the host -/

theorem handleData_nodup_ids (users : List User) (s : State) (data : Data) (c : Conn)
    (hul : data.type ≠ some "user-list") (hnd : (s.users.map User.id).Nodup) :
    ((handleData users s data c).1.users.map User.id).Nodup := by
  by_cases h1 : data.type = some "message"
  · simpa [handleData, h1] using hnd
  by_cases h2 : data.type = some "user"
  · rw [handleData_user users s data c h2]
    by_cases hm : data.user.id ∈ s.users.map User.id
    · simpa [hm] using hnd
    · simp only [hm, if_false, List.map_append, List.map_cons, List.map_nil]
      refine List.Nodup.append hnd (List.nodup_singleton _) ?_
      intro i hi hi'
      rw [List.mem_singleton] at hi'
      exact hm (hi' ▸ hi)
  by_cases h4 : data.type = some "ready"
  · have hmap : (s.users.map
          (fun user => if some user.id = data.id then { user with ready := true } else user)).map
          User.id = s.users.map User.id := by
      rw [List.map_map]
      apply List.map_congr_left
      intro u _
      by_cases hu : some u.id = data.id <;> simp [hu]
    have hs : (handleData users s data c).1.users = s.users.map
        (fun user => if some user.id = data.id then { user with ready := true } else user) := by
      simp [handleData, h4]
    rw [hs, hmap]
    exact hnd
  by_cases h5 : data.type = some "start"
  · simpa [handleData, h1, h2, hul, h4, h5] using hnd
  · simpa [handleData, h1, h2, hul, h4, h5] using hnd

theorem hostStep_nodup_ids (users : List User) (s : State) (e : HostEvent)
    (hul : e.isUserList = false) (hnd : (s.users.map User.id).Nodup) :
    ((hostStep users s e).users.map User.id).Nodup := by
  cases e with
  | connectionOpen k => simpa [hostStep, onConnectionOpen] using hnd
  | data d k =>
    apply handleData_nodup_ids users s d k _ hnd
    intro hd
    simp [HostEvent.isUserList, hd] at hul
  | iceChange k ice =>
    by_cases hi : ice = "disconnected" ∨ ice = "failed"
    · simp only [hostStep, oniceconnectionstatechange, hi, if_true]
      exact hnd.sublist ((List.filter_sublist _).map User.id)
    · simpa [hostStep, oniceconnectionstatechange, hi] using hnd

theorem hostRun_nodup_ids (users : List User) (events : List HostEvent) :
    ∀ s : State, (∀ e ∈ events, e.isUserList = false) → (s.users.map User.id).Nodup →
      ((hostRun users s events).users.map User.id).Nodup := by
  induction events with
  | nil => intro s _ hnd; exact hnd
  | cons e es ih =>
    intro s hul hnd
    simp only [hostRun, List.foldl_cons]
    exact ih _ (fun e' he' => hul e' (List.mem_cons_of_mem _ he'))
      (hostStep_nodup_ids users s e (hul e (List.mem_cons_self _ _)) hnd)

theorem hostRun_append (users : List User) (s : State) (es es' : List HostEvent) :
    hostRun users s (es ++ es') = hostRun users (hostRun users s es) es' := by
  simp [hostRun, List.foldl_append]

/-- C5 does not hold.  From the created room (which satisfies the invariant):
after the open event of Bob's connection the registry holds a connection
without roster entry; after a `user` message that carries an id that is no
connection's peer the roster holds an entry without connection; after a
`user-list` message that repeats an entry the roster holds an id twice. -/
theorem roster_registry_invariant_broken :
    rosterMatchesRegistry roomCreated
    ∧ ¬ rosterMatchesRegistry (hostRun [] roomCreated [HostEvent.connectionOpen bobConn])
    ∧ ¬ rosterMatchesRegistry (hostRun [] roomCreated
          [HostEvent.connectionOpen bobConn, HostEvent.data (userData bob) bobConn,
           HostEvent.data (userData { id := "user-GHOST", name := "Eve", ready := false }) bobConn])
    ∧ ¬ (((hostRun [] roomCreated
          [HostEvent.connectionOpen bobConn, HostEvent.data (userData bob) bobConn,
           HostEvent.data { Data.blank with type := some "user-list", users := [alice, bob, bob] }
             bobConn]).users.map User.id).Nodup) := by
  decide

/-- C5 (amended): in every host state reached from room creation by
connection-open events, inbound messages of any kind other than `user-list`,
and ICE state changes, no two roster entries share an id; and right after an
ICE change to `disconnected` or `failed` of a connection has been processed,
whatever came before, the roster holds no entry with that connection's peer id
and the registry no connection of that peer. -/
theorem host_roster_nodup (users : List User) (nickname id : String) (events : List HostEvent)
    (hul : ∀ e ∈ events, e.isUserList = false) :
    ((hostRun users (onPeerOpenCreate (State.initial nickname) id) events).users.map User.id).Nodup
    ∧ (∀ (anyEvents : List HostEvent) (c : Conn) (ice : String),
        ice = "disconnected" ∨ ice = "failed" →
        c.peer ∉ (hostRun users (onPeerOpenCreate (State.initial nickname) id)
                    (anyEvents ++ [HostEvent.iceChange c ice])).users.map User.id
        ∧ c.peer ∉ (hostRun users (onPeerOpenCreate (State.initial nickname) id)
                    (anyEvents ++ [HostEvent.iceChange c ice])).connections.map Conn.peer) := by
  constructor
  · apply hostRun_nodup_ids users events _ hul
    simp [onPeerOpenCreate]
  · intro anyEvents c ice hice
    rw [hostRun_append]
    simp only [hostRun, List.foldl_cons, List.foldl_nil, hostStep, oniceconnectionstatechange,
      hice, if_true]
    constructor
    · intro hmem
      obtain ⟨u, hu, he⟩ := List.mem_map.mp hmem
      have := (List.mem_filter.mp hu).2
      simp [he] at this
    · intro hmem
      obtain ⟨k, hk, he⟩ := List.mem_map.mp hmem
      have := (List.mem_filter.mp hk).2
      simp [he] at this

/-- Bob connects, announces himself twice and marks ready, Carol connects, and
Bob's connection fails: the roster is `[Alice]` again, without repeated id. -/
theorem host_roster_nodup_witness :
    ((hostRun [] roomCreated
        [HostEvent.connectionOpen bobConn, HostEvent.data (userData bob) bobConn,
         HostEvent.data (userData bob) bobConn, HostEvent.data readyBob bobConn,
         HostEvent.connectionOpen carolConn,
         HostEvent.iceChange bobConn "failed"]).users.map User.id).Nodup
    ∧ (hostRun [] roomCreated
        [HostEvent.connectionOpen bobConn, HostEvent.data (userData bob) bobConn,
         HostEvent.data (userData bob) bobConn, HostEvent.data readyBob bobConn,
         HostEvent.connectionOpen carolConn,
         HostEvent.iceChange bobConn "failed"]).users = [alice] :=
  ⟨(host_roster_nodup [] "Alice" "user-ALICE"
      [HostEvent.connectionOpen bobConn, HostEvent.data (userData bob) bobConn,
       HostEvent.data (userData bob) bobConn, HostEvent.data readyBob bobConn,
       HostEvent.connectionOpen carolConn,
       HostEvent.iceChange bobConn "failed"] (by decide)).1,
   by decide⟩

end P2PChat
